import Mathlib

/-!
Verification of the structured-logger tracing utility.

This file gives a shallow embedding of the tracer module of the repository
(a Python context manager that maintains a stack of tracing records, enriches
the popped record on scope exit with timing, call-site, thread and process
metadata, converts the temporal fields to serializable form, and dispatches
the finalized record to a list of sink backends), and proves the behavioural
claims about it.

Modelling conventions:
- Python dictionaries are insertion-ordered association lists; update
  overwrites an existing key in place and appends a fresh key at the end.
- Timestamps are integer counts of seconds; every call the source makes to
  the clock (Utils.now) is an explicit integer parameter of the embedding.
- Fallible Python operations return an Except value; the exception kinds the
  source can raise (IndexError on list access, KeyError on dict access,
  TypeError on attribute or operand mismatch) are explicit constructors.
- Each sink (trace shipper) is a function from the payload to either a
  raised exception (a string message) or the possibly mutated payload object;
  a ghost field records the payloads the sink was invoked with, and a ghost
  field of the tracer records the payloads handed to the dispatch method.
  Ghost fields only observe calls the source makes, they drive no behaviour.
-/

namespace StructuredLogger

/-- A Python value stored in a tracing record: strings, integers, datetime
objects, timedelta objects, plain numbers produced by total_seconds, and
nested dictionaries. -/
inductive Value where
  | vstr : String → Value
  | vint : Int → Value
  | vtime : Int → Value
  | vdelta : Int → Value
  | vfloat : Int → Value
  | vdict : List (String × Value) → Value

/-- A Python dictionary with string keys, kept in insertion order. -/
abbrev Dict := List (String × Value)

/-- Python dict read: first binding of the key, none when the key is absent
(the source would raise KeyError at the call sites we model with this). -/
def dictGet? : Dict → String → Option Value
  | [], _ => none
  | (k1, v) :: rest, k => if k1 = k then some v else dictGet? rest k

/-- Python dict write: overwrite the first binding of the key in place,
append at the end when the key is fresh. -/
def dictSet : Dict → String → Value → Dict
  | [], k, v => [(k, v)]
  | (k1, v1) :: rest, k, v =>
    if k1 = k then (k1, v) :: rest else (k1, v1) :: dictSet rest k v

/-- Python dict.update with a list of key value pairs, leftmost first. -/
def dictUpdate (d : Dict) (es : List (String × Value)) : Dict :=
  es.foldl (fun a kv => dictSet a kv.1 kv.2) d

/-- The exceptions the modelled source fragments can raise. -/
inductive PyError where
  | indexError : PyError
  | keyError : String → PyError
  | typeError : PyError

/-- One entry of the call stack as seen through the inspect module: source
file name, line number, and enclosing function name. -/
structure FrameInfo where
  filename : String
  line : Int
  funcName : String

/- Reserved keys of a tracing record (the class attributes _data_key and
friends of TracerContextManager). -/

def data_key : String := "data"

def start_time_key : String := "start_time"

def duration_key : String := "duration"

def file_key : String := "file"

def line_key : String := "line"

def function_key : String := "function_name"

def thread_key : String := "thread"

def pid_key : String := "pid"

def process_name_key : String := "process_name"

/-- All reserved keys of a record, in the order the pipeline produces them. -/
def reservedKeys : List String :=
  [start_time_key, data_key, file_key, line_key, function_key,
   thread_key, pid_key, process_name_key, duration_key]

/-- Models datetime.isoformat on the timezone-aware UTC timestamp built by
Utils.now: an ISO-8601 rendering of the timestamp with a UTC offset suffix.
The exact digit layout of the library is abstracted to an injective
rendering; only the fact that the result is the ISO-8601 string of the
start time matters to the claims. -/
def isoUtcSuffix : String := "+00:00"

def isoformat (t : Int) : String := toString t ++ isoUtcSuffix

/-- Models timedelta.total_seconds: the elapsed time as a plain count of
seconds (a float in Python; at the whole-second granularity of the model
the numeric value is the integer itself). -/
def total_seconds (d : Int) : Int := d

/-- One trace shipper (sink). The trace field models the trace method of the
sink object: it receives the payload object and either raises (left, with
the exception message) or returns with the payload possibly mutated through
the shared reference. The calls field is ghost instrumentation recording the
payload object each invocation received. -/
structure TraceShipper where
  trace : Dict → Except String Dict
  calls : List Dict

/-- The for-loop of TracerContextManager trace method: invoke every shipper
in registration order on the payload, catching anything a shipper raises and
logging it; a successful shipper may have mutated the payload object, which
the following shippers then observe (the same object is passed along).
Returns the shippers with their ghost call logs extended and the list of
logged error messages, in order. -/
def shipAll : List TraceShipper → Dict → List TraceShipper × List String
  | [], _ => ([], [])
  | s :: rest, payload =>
    match s.trace payload with
    | Except.ok mutated =>
      let r := shipAll rest mutated
      ({ s with calls := s.calls ++ [payload] } :: r.1, r.2)
    | Except.error e =>
      let r := shipAll rest payload
      ({ s with calls := s.calls ++ [payload] } :: r.1, e :: r.2)

/-- The tracer context manager object: the sink list, the context stack (the
Python source appends to and pops from the end of a list and reads index -1;
here the head of the list is the top of the stack), the process identity
cached at construction, the diagnostic log output, and a ghost list of the
payloads handed to the dispatch method. -/
structure TracerContextManager where
  tracer_shippers : List TraceShipper
  context_stack : List Dict
  pid : Int
  process_name : String
  log : List String
  dispatched : List Dict

/-- A freshly constructed tracer: empty stack, no diagnostic output. -/
def initTracer (shippers : List TraceShipper) (pid : Int) (pname : String) :
    TracerContextManager :=
  { tracer_shippers := shippers, context_stack := [], pid := pid,
    process_name := pname, log := [], dispatched := [] }

/-- The current_data property: the data mapping of the record at the top of
the context stack. On an empty stack the index -1 access raises IndexError;
on a record whose data key is absent the dict access raises KeyError. -/
def TracerContextManager.current_data (t : TracerContextManager) :
    Except PyError Dict :=
  match t.context_stack with
  | [] => Except.error PyError.indexError
  | top :: _ =>
    match dictGet? top data_key with
    | some (Value.vdict d) => Except.ok d
    | some _ => Except.error PyError.typeError
    | none => Except.error (PyError.keyError data_key)

/-- The only caller-facing write path: current_data.update(es). It mutates
the data mapping of the record at the top of the stack through the returned
reference. -/
def TracerContextManager.updateCurrentData (t : TracerContextManager)
    (es : List (String × Value)) : Except PyError TracerContextManager :=
  match t.context_stack with
  | [] => Except.error PyError.indexError
  | top :: rest =>
    match dictGet? top data_key with
    | some (Value.vdict d) =>
      Except.ok { t with
        context_stack := dictSet top data_key (Value.vdict (dictUpdate d es)) :: rest }
    | some _ => Except.error PyError.typeError
    | none => Except.error (PyError.keyError data_key)

/-- Dispatch of one payload: run the shipper loop, append the caught errors
to the diagnostic log, and record the payload in the ghost dispatched list. -/
def TracerContextManager.ship (t : TracerContextManager) (p : Dict) :
    TracerContextManager :=
  let r := shipAll t.tracer_shippers p
  { t with
    tracer_shippers := r.1
    log := t.log ++ r.2
    dispatched := t.dispatched ++ [p] }

/-- The trace method: with no payload it falls back to the record at the top
of the context stack (IndexError on an empty stack), then iterates the
shippers with per-shipper exception isolation. -/
def TracerContextManager.trace (t : TracerContextManager)
    (payload : Option Dict) : Except PyError TracerContextManager :=
  match payload with
  | none =>
    match t.context_stack with
    | [] => Except.error PyError.indexError
    | top :: _ => Except.ok (t.ship top)
  | some p => Except.ok (t.ship p)

/-- The update argument the enrich method builds: call-site file, line and
function name from the selected stack frame, current thread name, cached
process identity, and the elapsed duration as a timedelta object. -/
def enrichEntries (threadName : String) (pid : Int) (processName : String)
    (f : FrameInfo) (tNow t0 : Int) : List (String × Value) :=
  [(file_key, Value.vstr f.filename),
   (line_key, Value.vint f.line),
   (function_key, Value.vstr f.funcName),
   (thread_key, Value.vstr threadName),
   (pid_key, Value.vint pid),
   (process_name_key, Value.vstr processName),
   (duration_key, Value.vdelta (tNow - t0))]

/-- The enrich method. outerFrames models inspect.getouterframes of the
current frame: entry 0 is the frame of enrich itself, entry 1 the frame of
the caller of enrich, and so on; the source reads entry 2. The duration is
now minus the start time stored in the payload (KeyError when the key is
absent, TypeError when its value is not a datetime); the update is applied
to the payload in place. -/
def TracerContextManager.enrich (t : TracerContextManager)
    (threadName : String) (outerFrames : List FrameInfo) (tNow : Int)
    (payload : Dict) : Except PyError Dict :=
  match outerFrames.get? 2 with
  | none => Except.error PyError.indexError
  | some f =>
    match dictGet? payload start_time_key with
    | some (Value.vtime t0) =>
      Except.ok (dictUpdate payload
        (enrichEntries threadName t.pid t.process_name f tNow t0))
    | some _ => Except.error PyError.typeError
    | none => Except.error (PyError.keyError start_time_key)

/-- The convert method: replace the start time with its isoformat string and
the duration with its total_seconds number, in place. The dict reads raise
KeyError on absent keys; calling isoformat on a non-datetime or
total_seconds on a non-timedelta raises TypeError. -/
def convertRecord (payload : Dict) : Except PyError Dict :=
  match dictGet? payload start_time_key with
  | some (Value.vtime t0) =>
    let p1 := dictSet payload start_time_key (Value.vstr (isoformat t0))
    match dictGet? p1 duration_key with
    | some (Value.vdelta d) =>
      Except.ok (dictSet p1 duration_key (Value.vfloat (total_seconds d)))
    | some _ => Except.error PyError.typeError
    | none => Except.error (PyError.keyError duration_key)
  | some _ => Except.error PyError.typeError
  | none => Except.error (PyError.keyError start_time_key)

/-- The frame of the enrich method itself, entry 0 of its outer frames. -/
def enrichFrameInfo : FrameInfo :=
  { filename := "structuredlogger/tracer.py", line := 148, funcName := "_enrich" }

/-- The frame of the scope-exit method, the direct caller of enrich. -/
def exitFrameInfo : FrameInfo :=
  { filename := "structuredlogger/tracer.py", line := 197, funcName := "exitScope" }

/-- Scope entry: push a fresh record carrying the start time and an empty
data mapping onto the context stack, and return the tracer itself. -/
def TracerContextManager.enterScope (t : TracerContextManager) (tNow : Int) :
    TracerContextManager :=
  { t with context_stack :=
      [(start_time_key, Value.vtime tNow), (data_key, Value.vdict [])] :: t.context_stack }

/-- Scope exit: pop the top record (IndexError on an empty stack), enrich it,
convert it, dispatch it to the shippers, and return False as the suppression
flag. The exception information of the with statement is ignored by the
source, as is faithfully visible in the definition. When enrich is running,
its outer frames are itself, the scope-exit frame, and then the frames of
the caller of scope exit, of which there is always at least one. -/
def TracerContextManager.exitScope (t : TracerContextManager)
    (threadName : String) (excInfo : Option String) (callerFrame : FrameInfo)
    (moreFrames : List FrameInfo) (tNow : Int) :
    Except PyError (TracerContextManager × Bool) :=
  match t.context_stack with
  | [] => Except.error PyError.indexError
  | payload :: rest =>
    let t1 := { t with context_stack := rest }
    match t1.enrich threadName
        (enrichFrameInfo :: exitFrameInfo :: callerFrame :: moreFrames)
        tNow payload with
    | Except.error e => Except.error e
    | Except.ok p1 =>
      match convertRecord p1 with
      | Except.error e => Except.error e
      | Except.ok p2 =>
        match t1.trace (some p2) with
        | Except.error e => Except.error e
        | Except.ok t2 => Except.ok (t2, false)

/- The console sink. -/

def dquote : String := "\""

def lbrace : String := "\x7b"

def rbrace : String := "\x7d"

def colonSep : String := ": "

def commaSep : String := ", "

def emptyBody : String := ""

/- Models json.dumps: datetime and timedelta objects are not JSON
serializable and raise TypeError; everything else renders. The exact layout
of the rendering is schematic, only serializability and the rendered content
matter. -/
mutual

/-- Serialization of one value, as json.dumps does it. -/
def jsonOfValue : Value → Except PyError String
  | Value.vstr s => Except.ok (dquote ++ s ++ dquote)
  | Value.vint n => Except.ok (toString n)
  | Value.vfloat n => Except.ok (toString n)
  | Value.vtime _ => Except.error PyError.typeError
  | Value.vdelta _ => Except.error PyError.typeError
  | Value.vdict d =>
    match jsonOfEntries d with
    | Except.ok body => Except.ok (lbrace ++ body ++ rbrace)
    | Except.error e => Except.error e

/-- Serialization of the entries of a dictionary, as json.dumps does it. -/
def jsonOfEntries : List (String × Value) → Except PyError String
  | [] => Except.ok emptyBody
  | (k, v) :: rest =>
    match jsonOfValue v with
    | Except.error e => Except.error e
    | Except.ok s =>
      match jsonOfEntries rest with
      | Except.error e => Except.error e
      | Except.ok r => Except.ok (dquote ++ k ++ dquote ++ colonSep ++ s ++ commaSep ++ r)

end

/-- Models json.dumps on a payload dictionary. -/
def jsonDumps (d : Dict) : Except PyError String :=
  match jsonOfEntries d with
  | Except.ok body => Except.ok (lbrace ++ body ++ rbrace)
  | Except.error e => Except.error e

/-- The console sink object: the lines it printed to standard output, the
number of times it flushed standard output, and the error messages it sent
to its diagnostic logger. -/
structure ConsoleTracer where
  stdout : List String
  flushes : Nat
  logged : List PyError

/-- The trace method of the console sink: with no payload nothing at all
happens; otherwise the payload is serialized and printed and standard output
is flushed, and a serialization failure is caught and logged on the
diagnostic logger instead of propagating. -/
def ConsoleTracer.trace (c : ConsoleTracer) (payload : Option Dict) :
    ConsoleTracer :=
  match payload with
  | none => c
  | some p =>
    match jsonDumps p with
    | Except.ok line => { c with stdout := c.stdout ++ [line], flushes := c.flushes + 1 }
    | Except.error e => { c with logged := c.logged ++ [e] }

/- Caller programs against one tracer instance: a sequence of scope entries,
writes through current_data, and scope exits, exactly the operations the
context-manager interface offers. Clock readings and the call-site frames
are explicit arguments of the operations that consume them. -/

/-- One caller-visible operation on a tracer instance. -/
inductive Op where
  | scopeOpen : Int → Op
  | scopeWrite : List (String × Value) → Op
  | scopeClose : Int → FrameInfo → List FrameInfo → Op

/-- Execute one operation. A scope close runs with no pending exception and
discards the suppression flag, as the with statement does on normal exit. -/
def runOp (threadName : String) (t : TracerContextManager) :
    Op → Except PyError TracerContextManager
  | Op.scopeOpen tNow => Except.ok (t.enterScope tNow)
  | Op.scopeWrite es => t.updateCurrentData es
  | Op.scopeClose tNow f fr =>
    match t.exitScope threadName none f fr tNow with
    | Except.ok r => Except.ok r.1
    | Except.error e => Except.error e

/-- Execute a sequence of operations, stopping at the first raised error. -/
def runOps (threadName : String) (t : TracerContextManager) :
    List Op → Except PyError TracerContextManager
  | [] => Except.ok t
  | op :: rest =>
    match runOp threadName t op with
    | Except.ok t1 => runOps threadName t1 rest
    | Except.error e => Except.error e

/-- One scope open together with the writes performed right after it, while
the new record is on top of the stack. -/
structure OpenSpec where
  tOpen : Int
  writes : List (String × Value)

/-- One scope close together with the writes performed right before it,
while the record about to be closed is again on top of the stack, the clock
reading at the close, and the call-site frames above the scope-exit call. -/
structure CloseSpec where
  writes : List (String × Value)
  tClose : Int
  callerFrame : FrameInfo
  moreFrames : List FrameInfo

/-- The opening half of a strictly nested caller program. -/
def openOps : List OpenSpec → List Op
  | [] => []
  | o :: os => Op.scopeOpen o.tOpen :: Op.scopeWrite o.writes :: openOps os

/-- The closing half of a strictly nested caller program. -/
def closeOps : List CloseSpec → List Op
  | [] => []
  | c :: cs => Op.scopeWrite c.writes :: Op.scopeClose c.tClose c.callerFrame c.moreFrames :: closeOps cs

/-- A caller program of N nested opens followed by N closes in strict LIFO
order, with writes wherever a record is on top of the stack. -/
def nestedOps (os : List OpenSpec) (cs : List CloseSpec) : List Op :=
  openOps os ++ closeOps cs

/-- The shape of every record while it sits on the context stack: the start
time and the accumulated data mapping. -/
def openRecord (t0 : Int) (d : Dict) : Dict :=
  [(start_time_key, Value.vtime t0), (data_key, Value.vdict d)]

/-- The record a scope close hands to the shippers, spelled out: all nine
reserved keys in pipeline order, the start time as its ISO-8601 string, the
data mapping exactly as accumulated, and the duration as the plain number of
elapsed seconds. -/
def closedRecord (threadName : String) (pid : Int) (processName : String)
    (f : FrameInfo) (tNow t0 : Int) (d : Dict) : Dict :=
  [(start_time_key, Value.vstr (isoformat t0)),
   (data_key, Value.vdict d),
   (file_key, Value.vstr f.filename),
   (line_key, Value.vint f.line),
   (function_key, Value.vstr f.funcName),
   (thread_key, Value.vstr threadName),
   (pid_key, Value.vint pid),
   (process_name_key, Value.vstr processName),
   (duration_key, Value.vfloat (total_seconds (tNow - t0)))]

/-- The result of enriching and then converting a popped record, in terms of
the dictionary primitives: the enrichment update applied in place, then the
two temporal keys overwritten with their serialized forms. -/
def finalizeRecord (threadName : String) (pid : Int) (processName : String)
    (f : FrameInfo) (tNow t0 : Int) (payload : Dict) : Dict :=
  dictSet
    (dictSet (dictUpdate payload (enrichEntries threadName pid processName f tNow t0))
      start_time_key (Value.vstr (isoformat t0)))
    duration_key (Value.vfloat (total_seconds (tNow - t0)))

/-- The context stack produced by the opening half of a nested program: the
record of the last open is on top, each record carrying the writes performed
while it was on top. -/
def openStack : List OpenSpec → List Dict
  | [] => []
  | o :: os => openStack os ++ [openRecord o.tOpen (dictUpdate [] o.writes)]

/-- A stack segment described by start times and accumulated data mappings,
top of the stack first. -/
def stackOfSpecs : List (Int × Dict) → List Dict
  | [] => []
  | s :: specs => openRecord s.1 s.2 :: stackOfSpecs specs

/-- The records the closing half of a nested program dispatches, in dispatch
order: the top record of the stack is closed first, each after receiving the
writes performed just before its close. -/
def closedList (thr : String) (pid : Int) (pname : String) :
    List (Int × Dict) → List CloseSpec → List Dict
  | s :: specs, c :: cs =>
    closedRecord thr pid pname c.callerFrame c.tClose s.1 (dictUpdate s.2 c.writes)
      :: closedList thr pid pname specs cs
  | _, _ => []

/-- The stack segment left by the opening half, described as start times and
accumulated data mappings in close order: the innermost scope first. -/
def closeOrderSpecs : List OpenSpec → List (Int × Dict)
  | [] => []
  | o :: os => closeOrderSpecs os ++ [(o.tOpen, dictUpdate [] o.writes)]

/- The shipper instances used by the dispatch claims. -/

/-- A sink whose trace call raises on every payload. -/
def raisingShipper (msg : String) : TraceShipper :=
  { trace := fun _ => Except.error msg, calls := [] }

/-- A sink whose trace call succeeds and leaves the payload untouched. -/
def okShipper : TraceShipper :=
  { trace := fun p => Except.ok p, calls := [] }

/-- A sink whose trace call succeeds after writing one key of the payload
object through the shared reference. -/
def mutatingShipper (k : String) (v : Value) : TraceShipper :=
  { trace := fun p => Except.ok (dictSet p k v), calls := [] }

/-- The argument each shipper invocation receives: the payload as mutated by
the preceding successful shippers, threaded through the shared reference. -/
def dispatchArgs : List TraceShipper → Dict → List Dict
  | [], _ => []
  | s :: rest, p =>
    p :: dispatchArgs rest
      (match s.trace p with
       | Except.ok q => q
       | Except.error _ => p)

/- Concrete material for the witnesses, mirroring the example script of the
repository: two nested scopes with free-form string data. -/

def ka : String := "a"

def kb : String := "b"

def ke : String := "e"

def kf : String := "f"

def thrName : String := "MainThread"

def procName : String := "python example.py"

def exampleFile : String := "example/example.py"

def exampleFunc : String := "test"

def witFrame : FrameInfo :=
  { filename := exampleFile, line := 6, funcName := exampleFunc }

def witOpens : List OpenSpec :=
  [{ tOpen := 0, writes := [(ka, Value.vstr ka), (kb, Value.vstr kb)] },
   { tOpen := 1, writes := [(ke, Value.vstr ke), (kf, Value.vstr kf)] }]

def witCloses : List CloseSpec :=
  [{ writes := [], tClose := 2, callerFrame := witFrame, moreFrames := [] },
   { writes := [], tClose := 3, callerFrame := witFrame, moreFrames := [] }]

/-- The tracer state of the single-scope witnesses: one open record on the
stack, with one caller entry in its data mapping. -/
def witTracer : TracerContextManager :=
  { initTracer [] 7 procName with
    context_stack := [openRecord 0 [(ka, Value.vstr ka)]] }

/-- The error message of the raising witness sink. -/
def witMsg : String := "sink failure"

/-- A single-scope tracer whose only sink raises on every call. -/
def witRaisingTracer : TracerContextManager :=
  { initTracer [raisingShipper witMsg] 7 procName with
    context_stack := [openRecord 0 [(ka, Value.vstr ka)]] }

/-- The exception pending inside the with block in the C8 witness. -/
def witExc : String := "business logic failure"

/- Basic lemmas about the dictionary primitives. -/

/-- Reading a key just written. -/
theorem dictGet?_set_self (d : Dict) (k : String) (v : Value) :
    dictGet? (dictSet d k v) k = some v := by
  induction d with
  | nil => simp [dictSet, dictGet?]
  | cons kv rest ih =>
    by_cases h : kv.1 = k
    · simp [dictSet, dictGet?, h]
    · simp [dictSet, dictGet?, h, ih]

/-- Writing one key does not change the reading of another. -/
theorem dictGet?_set_ne (d : Dict) (k1 k : String) (v : Value) (h : k1 ≠ k) :
    dictGet? (dictSet d k1 v) k = dictGet? d k := by
  induction d with
  | nil => simp [dictSet, dictGet?, h]
  | cons kv rest ih =>
    by_cases h1 : kv.1 = k1
    · simp [dictSet, dictGet?, h1, h]
    · simp [dictSet, dictGet?, h1, ih]

/-- An update whose keys avoid a key does not change its reading. -/
theorem dictGet?_update_not_mem (es : List (String × Value)) (d : Dict)
    (k : String) (h : k ∉ es.map Prod.fst) :
    dictGet? (dictUpdate d es) k = dictGet? d k := by
  induction es generalizing d with
  | nil => simp [dictUpdate]
  | cons e rest ih =>
    simp only [List.map_cons, List.mem_cons] at h
    push_neg at h
    have step : dictUpdate d (e :: rest) = dictUpdate (dictSet d e.1 e.2) rest := by
      simp [dictUpdate]
    rw [step, ih _ h.2, dictGet?_set_ne _ _ _ _ (fun q => h.1 q.symm)]

/-- The keys of the enrichment update, in order. -/
theorem enrichEntries_keys (thr : String) (pid : Int) (pname : String)
    (f : FrameInfo) (tNow t0 : Int) :
    (enrichEntries thr pid pname f tNow t0).map Prod.fst =
      [file_key, line_key, function_key, thread_key, pid_key,
       process_name_key, duration_key] := rfl

/-- The enrichment update as a chain of single writes. -/
theorem dictUpdate_enrich (p : Dict) (thr : String) (pid : Int)
    (pname : String) (f : FrameInfo) (tNow t0 : Int) :
    dictUpdate p (enrichEntries thr pid pname f tNow t0) =
      dictSet (dictSet (dictSet (dictSet (dictSet (dictSet (dictSet p
        file_key (Value.vstr f.filename))
        line_key (Value.vint f.line))
        function_key (Value.vstr f.funcName))
        thread_key (Value.vstr thr))
        pid_key (Value.vint pid))
        process_name_key (Value.vstr pname))
        duration_key (Value.vdelta (tNow - t0)) := rfl

/-- After enrichment the duration key holds the elapsed timedelta. -/
theorem dictGet?_enriched_duration (p : Dict) (thr : String) (pid : Int)
    (pname : String) (f : FrameInfo) (tNow t0 : Int) :
    dictGet? (dictUpdate p (enrichEntries thr pid pname f tNow t0)) duration_key
      = some (Value.vdelta (tNow - t0)) := by
  rw [dictUpdate_enrich]
  exact dictGet?_set_self _ _ _

/-- Enrichment does not touch the start time entry. -/
theorem dictGet?_enriched_start (p : Dict) (thr : String) (pid : Int)
    (pname : String) (f : FrameInfo) (tNow t0 : Int) :
    dictGet? (dictUpdate p (enrichEntries thr pid pname f tNow t0)) start_time_key
      = dictGet? p start_time_key := by
  apply dictGet?_update_not_mem
  rw [enrichEntries_keys]
  decide

/-- Enrichment does not touch the data entry. -/
theorem dictGet?_enriched_data (p : Dict) (thr : String) (pid : Int)
    (pname : String) (f : FrameInfo) (tNow t0 : Int) :
    dictGet? (dictUpdate p (enrichEntries thr pid pname f tNow t0)) data_key
      = dictGet? p data_key := by
  apply dictGet?_update_not_mem
  rw [enrichEntries_keys]
  decide

/-- Full characterization of a scope close on a stack whose top record holds
a datetime start time: the top record is popped, finalized, and dispatched,
the suppression flag is False, and no error is raised, for every exception
situation of the with block. -/
theorem exitScope_spec (t : TracerContextManager) (threadName : String)
    (exc : Option String) (f : FrameInfo) (fr : List FrameInfo) (tNow : Int)
    (rec : Dict) (rest : List Dict) (t0 : Int)
    (hs : t.context_stack = rec :: rest)
    (h0 : dictGet? rec start_time_key = some (Value.vtime t0)) :
    t.exitScope threadName exc f fr tNow =
      Except.ok
        (TracerContextManager.ship { t with context_stack := rest }
          (finalizeRecord threadName t.pid t.process_name f tNow t0 rec),
         false) := by
  simp only [TracerContextManager.exitScope, hs, TracerContextManager.enrich,
    List.get?, h0, convertRecord, dictGet?_enriched_start,
    dictGet?_set_ne _ start_time_key duration_key _ (by decide),
    dictGet?_enriched_duration, TracerContextManager.trace, finalizeRecord]

/-- Scope entry pushes an open record with an empty data mapping. -/
theorem enterScope_eq (t : TracerContextManager) (tNow : Int) :
    t.enterScope tNow =
      { t with context_stack := openRecord tNow [] :: t.context_stack } := rfl

/-- The start time entry of a record on the stack. -/
theorem dictGet?_openRecord_start (t0 : Int) (d : Dict) :
    dictGet? (openRecord t0 d) start_time_key = some (Value.vtime t0) := rfl

/-- The data entry of a record on the stack. -/
theorem dictGet?_openRecord_data (t0 : Int) (d : Dict) :
    dictGet? (openRecord t0 d) data_key = some (Value.vdict d) := by
  simp [openRecord, dictGet?, start_time_key, data_key]

/-- A caller write while a record is on top of the stack extends exactly the
data mapping of that record. -/
theorem updateCurrentData_openRecord (t : TracerContextManager) (t0 : Int)
    (d : Dict) (rest : List Dict) (es : List (String × Value))
    (hs : t.context_stack = openRecord t0 d :: rest) :
    t.updateCurrentData es =
      Except.ok { t with
        context_stack := openRecord t0 (dictUpdate d es) :: rest } := by
  have hset : dictSet (openRecord t0 d) data_key (Value.vdict (dictUpdate d es))
      = openRecord t0 (dictUpdate d es) := by
    simp [openRecord, dictSet, start_time_key, data_key]
  simp only [TracerContextManager.updateCurrentData, hs,
    dictGet?_openRecord_data, hset]

/-- Finalizing a record of the stack shape yields the closed record with all
nine reserved keys spelled out. -/
theorem finalizeRecord_openRecord (thr : String) (pid : Int) (pname : String)
    (f : FrameInfo) (tNow t0 : Int) (d : Dict) :
    finalizeRecord thr pid pname f tNow t0 (openRecord t0 d) =
      closedRecord thr pid pname f tNow t0 d := rfl

/-- Running the opening half of a nested program raises nothing and pushes
exactly the open records. -/
theorem runOps_openPhase (thr : String) (os : List OpenSpec) :
    ∀ t : TracerContextManager,
      runOps thr t (openOps os) =
        Except.ok { t with context_stack := openStack os ++ t.context_stack } := by
  induction os with
  | nil =>
    intro t
    simp [openOps, runOps, openStack]
  | cons o os ih =>
    intro t
    simp only [openOps, runOps, runOp, enterScope_eq]
    rw [updateCurrentData_openRecord _ o.tOpen [] t.context_stack o.writes rfl]
    simp only [ih]
    simp [openStack, List.append_assoc]

/-- Running the closing half of a nested program on a stack with one segment
record per close raises nothing, consumes exactly the segment, and appends
exactly the closed records to the dispatched list, in close order. -/
theorem runOps_closePhase (thr : String) :
    ∀ (cs : List CloseSpec) (specs : List (Int × Dict))
      (t : TracerContextManager) (base : List Dict),
      specs.length = cs.length →
      t.context_stack = stackOfSpecs specs ++ base →
      ∃ shippers1 log1,
        runOps thr t (closeOps cs) =
          Except.ok { t with
            tracer_shippers := shippers1
            context_stack := base
            log := log1
            dispatched :=
              t.dispatched ++ closedList thr t.pid t.process_name specs cs } := by
  intro cs
  induction cs with
  | nil =>
    intro specs t base hlen hstack
    cases specs with
    | cons s specs => simp at hlen
    | nil =>
      refine ⟨t.tracer_shippers, t.log, ?_⟩
      simp only [closeOps, runOps, closedList, List.append_nil]
      simp only [stackOfSpecs, List.nil_append] at hstack
      rw [← hstack]
  | cons c cs ih =>
    intro specs t base hlen hstack
    cases specs with
    | nil => simp at hlen
    | cons s specs =>
      simp only [stackOfSpecs, List.cons_append] at hstack
      have hw := updateCurrentData_openRecord t s.1 s.2
        (stackOfSpecs specs ++ base) c.writes hstack
      have hexit := exitScope_spec
        { t with context_stack :=
            openRecord s.1 (dictUpdate s.2 c.writes) :: (stackOfSpecs specs ++ base) }
        thr none c.callerFrame c.moreFrames c.tClose
        (openRecord s.1 (dictUpdate s.2 c.writes)) (stackOfSpecs specs ++ base)
        s.1 rfl (dictGet?_openRecord_start _ _)
      obtain ⟨sh1, lg1, hrun⟩ := ih specs
        { t with
          tracer_shippers := (shipAll t.tracer_shippers
            (closedRecord thr t.pid t.process_name c.callerFrame c.tClose s.1
              (dictUpdate s.2 c.writes))).1
          context_stack := stackOfSpecs specs ++ base
          log := t.log ++ (shipAll t.tracer_shippers
            (closedRecord thr t.pid t.process_name c.callerFrame c.tClose s.1
              (dictUpdate s.2 c.writes))).2
          dispatched := t.dispatched ++
            [closedRecord thr t.pid t.process_name c.callerFrame c.tClose s.1
              (dictUpdate s.2 c.writes)] }
        base (by simpa using hlen) rfl
      refine ⟨sh1, lg1, ?_⟩
      simp only [closeOps, runOps, runOp, hw, hexit, finalizeRecord_openRecord,
        TracerContextManager.ship, hrun]
      simp [closedList, List.append_assoc]

/-- The stack of an appended spec list is the appended stacks. -/
theorem stackOfSpecs_append (a b : List (Int × Dict)) :
    stackOfSpecs (a ++ b) = stackOfSpecs a ++ stackOfSpecs b := by
  induction a with
  | nil => rfl
  | cons s a ih => simp [stackOfSpecs, ih]

/-- The stack after the opening half, in spec form. -/
theorem openStack_eq_specs (os : List OpenSpec) :
    openStack os = stackOfSpecs (closeOrderSpecs os) := by
  induction os with
  | nil => rfl
  | cons o os ih =>
    simp [openStack, closeOrderSpecs, stackOfSpecs_append, ih, stackOfSpecs]

/-- One spec entry per open. -/
theorem closeOrderSpecs_length (os : List OpenSpec) :
    (closeOrderSpecs os).length = os.length := by
  induction os with
  | nil => rfl
  | cons o os ih => simp [closeOrderSpecs, ih]

/-- One closed record per close. -/
theorem closedList_length (thr : String) (pid : Int) (pname : String) :
    ∀ (specs : List (Int × Dict)) (cs : List CloseSpec),
      specs.length = cs.length →
      (closedList thr pid pname specs cs).length = cs.length := by
  intro specs
  induction specs with
  | nil =>
    intro cs h
    cases cs with
    | nil => rfl
    | cons c cs => simp at h
  | cons s specs ih =>
    intro cs h
    cases cs with
    | nil => simp at h
    | cons c cs => simp [closedList, ih cs (by simpa using h)]

/-- Every closed record carries every reserved key. -/
theorem closedRecord_reserved (thr : String) (pid : Int) (pname : String)
    (f : FrameInfo) (tNow t0 : Int) (d : Dict) :
    ∀ k ∈ reservedKeys,
      (dictGet? (closedRecord thr pid pname f tNow t0 d) k).isSome = true := by
  intro k hk
  simp only [reservedKeys, List.mem_cons, List.not_mem_nil, or_false] at hk
  rcases hk with rfl | rfl | rfl | rfl | rfl | rfl | rfl | rfl | rfl <;> rfl

/-- Every dispatched record of the closing half is a closed record. -/
theorem closedList_mem (thr : String) (pid : Int) (pname : String) :
    ∀ (specs : List (Int × Dict)) (cs : List CloseSpec) (r : Dict),
      r ∈ closedList thr pid pname specs cs →
      ∃ f t1 t0 d, r = closedRecord thr pid pname f t1 t0 d := by
  intro specs
  induction specs with
  | nil =>
    intro cs r h
    cases cs with
    | nil => simp [closedList] at h
    | cons c cs => simp [closedList] at h
  | cons s specs ih =>
    intro cs r h
    cases cs with
    | nil => simp [closedList] at h
    | cons c cs =>
      simp only [closedList, List.mem_cons] at h
      rcases h with rfl | h
      · exact ⟨_, _, _, _, rfl⟩
      · exact ih cs r h

/-- Sequencing of operation runs. -/
theorem runOps_append (thr : String) (a b : List Op) :
    ∀ t : TracerContextManager,
      runOps thr t (a ++ b) =
        match runOps thr t a with
        | Except.ok t1 => runOps thr t1 b
        | Except.error e => Except.error e := by
  induction a with
  | nil => intro t; simp [runOps]
  | cons op a ih =>
    intro t
    simp only [List.cons_append, runOps]
    cases runOp thr t op with
    | ok t1 => simp [ih]
    | error e => simp

/-- Claim C1: for every sequence of N nested scope opens followed by N scope
closes in strict LIFO order on one tracer instance, with arbitrary writes
performed while each record is on top of the stack, the run raises nothing,
exactly N records are dispatched to the sinks, one per close and hence each
record exactly once regardless of nesting depth, the records are dispatched
in close order with the inner scope before the outer scope, and each
dispatched record carries every reserved key plus, under the data key,
exactly the entries written to its data mapping while it was on top of the
stack. -/
theorem c1_nested_lifo_dispatch (thr : String) (shippers : List TraceShipper)
    (pid : Int) (pname : String) (os : List OpenSpec) (cs : List CloseSpec)
    (hlen : os.length = cs.length) :
    ∃ t1,
      runOps thr (initTracer shippers pid pname) (nestedOps os cs) = Except.ok t1 ∧
      t1.context_stack = [] ∧
      t1.dispatched = closedList thr pid pname (closeOrderSpecs os) cs ∧
      t1.dispatched.length = cs.length ∧
      ∀ r ∈ t1.dispatched, ∀ k ∈ reservedKeys, (dictGet? r k).isSome = true := by
  have hlen2 : (closeOrderSpecs os).length = cs.length := by
    rw [closeOrderSpecs_length]
    exact hlen
  have hopen2 : runOps thr (initTracer shippers pid pname) (openOps os) =
      Except.ok { initTracer shippers pid pname with context_stack := openStack os } := by
    rw [runOps_openPhase]
    simp [initTracer]
  obtain ⟨sh1, lg1, hclose⟩ := runOps_closePhase thr cs (closeOrderSpecs os)
    { initTracer shippers pid pname with context_stack := openStack os }
    [] hlen2 (by simp [openStack_eq_specs])
  have hfull : runOps thr (initTracer shippers pid pname) (nestedOps os cs) =
      runOps thr { initTracer shippers pid pname with context_stack := openStack os }
        (closeOps cs) := by
    rw [nestedOps, runOps_append, hopen2]
  rw [hclose] at hfull
  refine ⟨_, hfull, ?_, ?_, ?_, ?_⟩
  · rfl
  · simp [initTracer]
  · simp only [initTracer]
    rw [List.nil_append]
    exact closedList_length thr pid pname _ cs hlen2
  · intro r hr k hk
    simp only [initTracer, List.nil_append] at hr
    obtain ⟨f, tc, t0, d, rfl⟩ := closedList_mem thr pid pname _ cs r hr
    exact closedRecord_reserved thr pid pname f tc t0 d k hk

/-- Witness for claim C1 at the concrete nested program of the example
script: two opens with writes, then two closes. -/
theorem c1_nested_lifo_dispatch_witness :
    ∃ t1,
      runOps thrName (initTracer [] 7 procName) (nestedOps witOpens witCloses) = Except.ok t1 ∧
      t1.context_stack = [] ∧
      t1.dispatched = closedList thrName 7 procName (closeOrderSpecs witOpens) witCloses ∧
      t1.dispatched.length = witCloses.length ∧
      ∀ r ∈ t1.dispatched, ∀ k ∈ reservedKeys, (dictGet? r k).isSome = true :=
  c1_nested_lifo_dispatch thrName [] 7 procName witOpens witCloses rfl

/-- Each registered shipper is invoked exactly once per dispatch, whatever
any shipper raises. -/
theorem shipAll_calls_length (shippers : List TraceShipper) :
    ∀ payload : Dict,
      ((shipAll shippers payload).1.map fun s => s.calls.length)
        = shippers.map fun s => s.calls.length + 1 := by
  induction shippers with
  | nil => intro payload; rfl
  | cons s rest ih =>
    intro payload
    cases htr : s.trace payload with
    | ok m => simp [shipAll, htr, ih]
    | error e => simp [shipAll, htr, ih]

/-- Claim C2: dispatch of a finalized record over the sink list isolates
every sink failure: the trace method returns normally (the error is caught,
not propagated to the caller whose scope close triggered the dispatch),
every sink is invoked exactly once per dispatch in registration order, and
with two registered sinks of which the first raises on every call, the
second still receives every dispatched record while the raised message goes
to the diagnostic log. -/
theorem c2_sink_isolation (tr : TracerContextManager)
    (shippers : List TraceShipper) (payload : Dict) (msg : String)
    (c0 : List Dict) :
    tr.trace (some payload) = Except.ok (tr.ship payload) ∧
    ((shipAll shippers payload).1.map fun s => s.calls.length)
        = (shippers.map fun s => s.calls.length + 1) ∧
    shipAll [raisingShipper msg, { okShipper with calls := c0 }] payload
        = ([{ raisingShipper msg with calls := [payload] },
             { okShipper with calls := c0 ++ [payload] }], [msg]) :=
  ⟨rfl, shipAll_calls_length shippers payload, rfl⟩

/-- The dispatch loop passes each shipper the threaded payload object. -/
theorem shipAll_eq_dispatchArgs (shippers : List TraceShipper) :
    ∀ p : Dict,
      (shipAll shippers p).1 =
        List.zipWith (fun s a => { s with calls := s.calls ++ [a] })
          shippers (dispatchArgs shippers p) := by
  induction shippers with
  | nil => intro p; rfl
  | cons s rest ih =>
    intro p
    cases htr : s.trace p with
    | ok m => simp [shipAll, dispatchArgs, htr, ih]
    | error e => simp [shipAll, dispatchArgs, htr, ih]

/-- Claim C10: dispatch hands every sink the very same record object, with
no defensive copy: the argument of each invocation is the payload as left by
the mutations of all previously invoked sinks, and concretely a second sink
observes the key a first sink wrote into the record. -/
theorem c10_shared_payload_reference (shippers : List TraceShipper) (p : Dict)
    (k : String) (v : Value) (c0 : List Dict) :
    (shipAll shippers p).1 =
      List.zipWith (fun s a => { s with calls := s.calls ++ [a] })
        shippers (dispatchArgs shippers p) ∧
    (shipAll [mutatingShipper k v, { okShipper with calls := c0 }] p).1 =
      [{ mutatingShipper k v with calls := [p] },
       { okShipper with calls := c0 ++ [dictSet p k v] }] :=
  ⟨shipAll_eq_dispatchArgs shippers p, rfl⟩

/-- Claim C4: reading current_data on a tracer with zero open scopes raises
an explicit error (the IndexError of the index -1 access on the empty list)
and never silently returns any mapping. -/
theorem c4_empty_stack_error (t : TracerContextManager)
    (h : t.context_stack = []) :
    t.current_data = Except.error PyError.indexError ∧
    ∀ d : Dict, t.current_data ≠ Except.ok d := by
  constructor
  · simp [TracerContextManager.current_data, h]
  · intro d hc
    simp [TracerContextManager.current_data, h] at hc

/-- Witness for claim C4 at a freshly constructed tracer. -/
theorem c4_empty_stack_error_witness :
    (initTracer [] 7 procName).current_data = Except.error PyError.indexError ∧
    ∀ d : Dict, (initTracer [] 7 procName).current_data ≠ Except.ok d :=
  c4_empty_stack_error (initTracer [] 7 procName) rfl

/-- Claim C5: the data mapping written by the caller between open and close
appears unmodified, same keys and same values, in the record handed to the
sink loop, merged alongside the reserved keys; enrichment is purely additive
on the record and never overwrites the data entry of any payload. -/
theorem c5_data_round_trip (t : TracerContextManager) (thr : String)
    (exc : Option String) (f : FrameInfo) (fr : List FrameInfo) (tNow : Int)
    (rec : Dict) (rest : List Dict) (t0 : Int) (d : Dict)
    (hs : t.context_stack = rec :: rest)
    (h0 : dictGet? rec start_time_key = some (Value.vtime t0))
    (hd : dictGet? rec data_key = some (Value.vdict d)) :
    t.exitScope thr exc f fr tNow =
      Except.ok
        (TracerContextManager.ship { t with context_stack := rest }
          (finalizeRecord thr t.pid t.process_name f tNow t0 rec), false) ∧
    dictGet? (finalizeRecord thr t.pid t.process_name f tNow t0 rec) data_key
      = some (Value.vdict d) ∧
    ∀ p : Dict,
      dictGet? (dictUpdate p (enrichEntries thr t.pid t.process_name f tNow t0)) data_key
        = dictGet? p data_key := by
  refine ⟨exitScope_spec t thr exc f fr tNow rec rest t0 hs h0, ?_, ?_⟩
  · rw [finalizeRecord, dictGet?_set_ne _ _ _ _ (by decide),
      dictGet?_set_ne _ _ _ _ (by decide), dictGet?_enriched_data, hd]
  · intro p
    exact dictGet?_enriched_data p thr t.pid t.process_name f tNow t0

/-- Witness for claim C5 at the concrete single-scope tracer. -/
theorem c5_data_round_trip_witness :
    witTracer.exitScope thrName none witFrame [] 5 =
      Except.ok
        (TracerContextManager.ship { witTracer with context_stack := [] }
          (finalizeRecord thrName witTracer.pid witTracer.process_name witFrame 5 0
            (openRecord 0 [(ka, Value.vstr ka)])), false) ∧
    dictGet? (finalizeRecord thrName witTracer.pid witTracer.process_name witFrame 5 0
        (openRecord 0 [(ka, Value.vstr ka)])) data_key
      = some (Value.vdict [(ka, Value.vstr ka)]) ∧
    ∀ p : Dict,
      dictGet? (dictUpdate p
          (enrichEntries thrName witTracer.pid witTracer.process_name witFrame 5 0)) data_key
        = dictGet? p data_key :=
  c5_data_round_trip witTracer thrName none witFrame [] 5
    (openRecord 0 [(ka, Value.vstr ka)]) [] 0 [(ka, Value.vstr ka)] rfl
    (dictGet?_openRecord_start 0 [(ka, Value.vstr ka)])
    (dictGet?_openRecord_data 0 [(ka, Value.vstr ka)])

/-- Claim C6: right before dispatch the start time entry of the record is
its ISO-8601 string and the duration entry is the plain number of elapsed
seconds, now minus the start time, which is non-negative whenever the clock
did not jump backwards. -/
theorem c6_converted_forms (t : TracerContextManager) (thr : String)
    (exc : Option String) (f : FrameInfo) (fr : List FrameInfo) (tNow : Int)
    (rec : Dict) (rest : List Dict) (t0 : Int)
    (hs : t.context_stack = rec :: rest)
    (h0 : dictGet? rec start_time_key = some (Value.vtime t0))
    (hclock : t0 ≤ tNow) :
    t.exitScope thr exc f fr tNow =
      Except.ok
        (TracerContextManager.ship { t with context_stack := rest }
          (finalizeRecord thr t.pid t.process_name f tNow t0 rec), false) ∧
    dictGet? (finalizeRecord thr t.pid t.process_name f tNow t0 rec) start_time_key
      = some (Value.vstr (isoformat t0)) ∧
    dictGet? (finalizeRecord thr t.pid t.process_name f tNow t0 rec) duration_key
      = some (Value.vfloat (total_seconds (tNow - t0))) ∧
    0 ≤ total_seconds (tNow - t0) := by
  refine ⟨exitScope_spec t thr exc f fr tNow rec rest t0 hs h0, ?_, ?_, ?_⟩
  · rw [finalizeRecord, dictGet?_set_ne _ _ _ _ (by decide), dictGet?_set_self]
  · rw [finalizeRecord, dictGet?_set_self]
  · simp only [total_seconds]
    omega

/-- Witness for claim C6 at the concrete single-scope tracer. -/
theorem c6_converted_forms_witness :
    witTracer.exitScope thrName none witFrame [] 5 =
      Except.ok
        (TracerContextManager.ship { witTracer with context_stack := [] }
          (finalizeRecord thrName witTracer.pid witTracer.process_name witFrame 5 0
            (openRecord 0 [(ka, Value.vstr ka)])), false) ∧
    dictGet? (finalizeRecord thrName witTracer.pid witTracer.process_name witFrame 5 0
        (openRecord 0 [(ka, Value.vstr ka)])) start_time_key
      = some (Value.vstr (isoformat 0)) ∧
    dictGet? (finalizeRecord thrName witTracer.pid witTracer.process_name witFrame 5 0
        (openRecord 0 [(ka, Value.vstr ka)])) duration_key
      = some (Value.vfloat (total_seconds (5 - 0))) ∧
    0 ≤ total_seconds (5 - 0) :=
  c6_converted_forms witTracer thrName none witFrame [] 5
    (openRecord 0 [(ka, Value.vstr ka)]) [] 0 rfl
    (dictGet?_openRecord_start 0 [(ka, Value.vstr ka)]) (by decide)

/-- Claim C7: a scope close on a tracer with a non-empty scope stack raises
nothing out of the close, whatever any sink raises: the close returns
normally, the popped record is dispatched, and the only trace of sink
failures is the error lines appended to the diagnostic log by the dispatch
loop. -/
theorem c7_close_never_raises (t : TracerContextManager) (thr : String)
    (exc : Option String) (f : FrameInfo) (fr : List FrameInfo) (tNow : Int)
    (rec : Dict) (rest : List Dict) (t0 : Int)
    (hs : t.context_stack = rec :: rest)
    (h0 : dictGet? rec start_time_key = some (Value.vtime t0)) :
    ∃ t1, t.exitScope thr exc f fr tNow = Except.ok (t1, false) ∧
      t1.log = t.log ++ (shipAll t.tracer_shippers
        (finalizeRecord thr t.pid t.process_name f tNow t0 rec)).2 ∧
      t1.dispatched = t.dispatched ++
        [finalizeRecord thr t.pid t.process_name f tNow t0 rec] ∧
      t1.context_stack = rest :=
  ⟨_, exitScope_spec t thr exc f fr tNow rec rest t0 hs h0, rfl, rfl, rfl⟩

/-- Witness for claim C7 at the concrete single-scope tracer, with a sink
that raises on every call. -/
theorem c7_close_never_raises_witness :
    ∃ t1, witRaisingTracer.exitScope thrName none witFrame [] 5 = Except.ok (t1, false) ∧
      t1.log = witRaisingTracer.log ++ (shipAll witRaisingTracer.tracer_shippers
        (finalizeRecord thrName witRaisingTracer.pid witRaisingTracer.process_name
          witFrame 5 0 (openRecord 0 [(ka, Value.vstr ka)]))).2 ∧
      t1.dispatched = witRaisingTracer.dispatched ++
        [finalizeRecord thrName witRaisingTracer.pid witRaisingTracer.process_name
          witFrame 5 0 (openRecord 0 [(ka, Value.vstr ka)])] ∧
      t1.context_stack = [] :=
  c7_close_never_raises witRaisingTracer thrName none witFrame [] 5
    (openRecord 0 [(ka, Value.vstr ka)]) [] 0 rfl
    (dictGet?_openRecord_start 0 [(ka, Value.vstr ka)])

/-- Claim C8: scope exit never suppresses an exception raised inside the
traced block: the exit result is entirely independent of the exception
information, the suppression flag it returns is always False, so the with
statement re-raises the pending exception, and even with an exception
pending the popped record is still enriched, converted and dispatched. -/
theorem c8_exit_never_suppresses (t : TracerContextManager) (thr : String)
    (msg : String) (f : FrameInfo) (fr : List FrameInfo) (tNow : Int)
    (rec : Dict) (rest : List Dict) (t0 : Int)
    (hs : t.context_stack = rec :: rest)
    (h0 : dictGet? rec start_time_key = some (Value.vtime t0)) :
    (∀ exc : Option String,
      t.exitScope thr exc f fr tNow = t.exitScope thr none f fr tNow) ∧
    ∃ t1, t.exitScope thr (some msg) f fr tNow = Except.ok (t1, false) ∧
      t1.dispatched = t.dispatched ++
        [finalizeRecord thr t.pid t.process_name f tNow t0 rec] :=
  ⟨fun _ => rfl,
   _, exitScope_spec t thr (some msg) f fr tNow rec rest t0 hs h0, rfl⟩

/-- Witness for claim C8 at the concrete single-scope tracer, with an
exception pending in the with block. -/
theorem c8_exit_never_suppresses_witness :
    (∀ exc : Option String,
      witTracer.exitScope thrName exc witFrame [] 5 =
        witTracer.exitScope thrName none witFrame [] 5) ∧
    ∃ t1, witTracer.exitScope thrName (some witExc) witFrame [] 5 = Except.ok (t1, false) ∧
      t1.dispatched = witTracer.dispatched ++
        [finalizeRecord thrName witTracer.pid witTracer.process_name witFrame 5 0
          (openRecord 0 [(ka, Value.vstr ka)])] :=
  c8_exit_never_suppresses witTracer thrName witExc witFrame [] 5
    (openRecord 0 [(ka, Value.vstr ka)]) [] 0 rfl
    (dictGet?_openRecord_start 0 [(ka, Value.vstr ka)])

/-- Claim C9: calling the console sink trace operation with no payload, its
default, is a no-op: the sink object is unchanged, so nothing is written to
standard output, no flush is performed, and nothing is raised or logged. -/
theorem c9_console_none_noop (c : ConsoleTracer) :
    c.trace none = c ∧
    (c.trace none).stdout = c.stdout ∧
    (c.trace none).flushes = c.flushes ∧
    (c.trace none).logged = c.logged :=
  ⟨rfl, rfl, rfl, rfl⟩

end StructuredLogger
